import Mathlib

/-!
Verification development for the polyarb repository.

The definitions below are a shallow embedding of the arbitrage-detection core
(`src/polyarb/api/websocket.py`) and of the paper-trading engine
(`src/polyarb/paper_trading/engine.py`).  Python floats are modelled as exact
rationals (`ℚ`), Python dicts as insertion-ordered association lists, and
`datetime.now()` as an explicitly passed clock value (`ℕ`).  Code that can
raise an uncaught Python exception is modelled in `Except Unit`.
-/

set_option maxHeartbeats 1000000

namespace Polyarb

/-- First-match lookup in an insertion-ordered association list
(the embedding of a Python `dict` read `m[k]` / `m.get(k)`). -/
def alookup {α : Type} : List (String × α) → String → Option α
  | [], _ => none
  | (k', v) :: rest, k => if k' = k then some v else alookup rest k

/-- Insert-or-overwrite in an insertion-ordered association list
(the embedding of a Python `dict` write `m[k] = v`: an existing key keeps
its position, a new key is appended). -/
def ainsert {α : Type} : List (String × α) → String → α → List (String × α)
  | [], k, v => [(k, v)]
  | (k', v') :: rest, k, v =>
      if k' = k then (k', v) :: rest else (k', v') :: ainsert rest k v

/-- Sum of the values of an association list (Python `sum(d.values())`). -/
def asum (m : List (String × ℚ)) : ℚ := (m.map Prod.snd).sum

/-- `new.getD old` for the Python idiom `if x is not None: field = x`. -/
def updOpt {α : Type} (new old : Option α) : Option α :=
  match new with
  | some v => some v
  | none => old

/-- Opportunity dictionaries as produced by the four `check_*` methods and
consumed by the paper-trading engine.  Absent dict keys are `none`. -/
structure Opp where
  type : String
  market_id : Option String := none
  event_id : Option String := none
  question : Option String := none
  title : Option String := none
  url : Option String := none
  yes_ask : Option ℚ := none
  no_ask : Option ℚ := none
  yes_bid : Option ℚ := none
  no_bid : Option ℚ := none
  total_cost : Option ℚ := none
  total_value : Option ℚ := none
  profit : Option ℚ := none
  profit_percent : Option ℚ := none
  liquidity : Option ℚ := none
  category : Option String := none
  prices : Option (List (String × ℚ)) := none
  num_outcomes : Option ℕ := none
  deriving DecidableEq

/-- `MarketState` (websocket.py, lines 16-110): state of one binary market. -/
structure MarketState where
  market_id : String
  question : String
  slug : String
  liquidity : ℚ
  category : String
  yes_token_id : String
  no_token_id : String
  yes_ask : Option ℚ := none
  no_ask : Option ℚ := none
  yes_bid : Option ℚ := none
  no_bid : Option ℚ := none
  last_update : ℕ := 0
  deriving DecidableEq

/-- `MarketState.url` property. -/
def MarketState.url (m : MarketState) : String :=
  if m.slug ≠ "" then "https://polymarket.com/event/" ++ m.slug else ""

/-- `MarketState.update_price` (websocket.py lines 36-48).  Note that the
source sets `self.last_update = datetime.now()` outside the `if`/`elif`,
hence unconditionally, even for a foreign `token_id`. -/
def MarketState.update_price (m : MarketState) (token_id : String)
    (bid ask : Option ℚ) (now : ℕ) : MarketState :=
  let m1 :=
    if token_id = m.yes_token_id then
      { m with yes_bid := updOpt bid m.yes_bid, yes_ask := updOpt ask m.yes_ask }
    else if token_id = m.no_token_id then
      { m with no_bid := updOpt bid m.no_bid, no_ask := updOpt ask m.no_ask }
    else m
  { m1 with last_update := now }

/-- `MarketState.check_underpriced` (websocket.py lines 50-79). -/
def MarketState.check_underpriced (m : MarketState) (min_profit : ℚ) : Option Opp :=
  match m.yes_ask, m.no_ask with
  | some ya, some na =>
      if ya ≤ 0 ∨ na ≤ 0 then none
      else
        let total_cost := ya + na
        if 1 ≤ total_cost then none
        else
          let profit := 1 - total_cost
          let profit_percent := profit / total_cost * 100
          if profit_percent < min_profit then none
          else some
            { type := "BINARY_UNDERPRICED"
              market_id := some m.market_id
              question := some m.question
              url := some m.url
              yes_ask := some ya
              no_ask := some na
              total_cost := some total_cost
              profit := some profit
              profit_percent := some profit_percent
              liquidity := some m.liquidity
              category := some m.category }
  | _, _ => none

/-- `MarketState.check_overpriced` (websocket.py lines 81-110). -/
def MarketState.check_overpriced (m : MarketState) (min_profit : ℚ) : Option Opp :=
  match m.yes_bid, m.no_bid with
  | some yb, some nb =>
      if yb ≤ 0 ∨ nb ≤ 0 then none
      else
        let total_value := yb + nb
        if total_value ≤ 1 then none
        else
          let profit := total_value - 1
          let profit_percent := profit / 1 * 100
          if profit_percent < min_profit then none
          else some
            { type := "BINARY_OVERPRICED"
              market_id := some m.market_id
              question := some m.question
              url := some m.url
              yes_bid := some yb
              no_bid := some nb
              total_value := some total_value
              profit := some profit
              profit_percent := some profit_percent
              liquidity := some m.liquidity
              category := some m.category }
  | _, _ => none

/-- `NegRiskEventState` (websocket.py lines 113-197).  `markets` maps
market_id to (yes_token_id, question). -/
structure NegRiskEventState where
  event_id : String
  title : String
  slug : String
  total_liquidity : ℚ
  markets : List (String × String × String) := []
  yes_prices : List (String × ℚ) := []
  yes_bids : List (String × ℚ) := []
  last_update : ℕ := 0
  deriving DecidableEq

/-- `NegRiskEventState.url` property. -/
def NegRiskEventState.url (e : NegRiskEventState) : String :=
  if e.slug ≠ "" then "https://polymarket.com/event/" ++ e.slug else ""

/-- `NegRiskEventState.update_price` (websocket.py lines 128-135): only acts
when the token is known; `last_update` is refreshed inside the guard. -/
def NegRiskEventState.update_price (e : NegRiskEventState) (token_id : String)
    (bid ask : Option ℚ) (now : ℕ) : NegRiskEventState :=
  if (alookup e.yes_prices token_id).isSome
      || e.markets.any (fun m => m.2.1 = token_id) then
    { e with
      yes_prices :=
        match ask with
        | some a => ainsert e.yes_prices token_id a
        | none => e.yes_prices
      yes_bids :=
        match bid with
        | some b => ainsert e.yes_bids token_id b
        | none => e.yes_bids
      last_update := now }
  else e

/-- `NegRiskEventState.check_underpriced` (websocket.py lines 141-169). -/
def NegRiskEventState.check_underpriced (e : NegRiskEventState) (min_profit : ℚ) :
    Option Opp :=
  if e.yes_prices.length < 3 then none
  else
    let total_cost := asum e.yes_prices
    if 1 ≤ total_cost then none
    else if total_cost ≤ 1/10 then none
    else
      let profit := 1 - total_cost
      let profit_percent := profit / total_cost * 100
      if profit_percent < min_profit then none
      else some
        { type := "NEGRISK_UNDERPRICED"
          event_id := some e.event_id
          title := some e.title
          url := some e.url
          prices := some e.yes_prices
          total_cost := some total_cost
          profit := some profit
          profit_percent := some profit_percent
          liquidity := some e.total_liquidity
          num_outcomes := some e.yes_prices.length }

/-- `NegRiskEventState.check_overpriced` (websocket.py lines 171-197). -/
def NegRiskEventState.check_overpriced (e : NegRiskEventState) (min_profit : ℚ) :
    Option Opp :=
  if e.yes_bids.length < 3 then none
  else
    let total_value := asum e.yes_bids
    if total_value ≤ 1 then none
    else
      let profit := total_value - 1
      let profit_percent := profit / 1 * 100
      if profit_percent < min_profit then none
      else some
        { type := "NEGRISK_OVERPRICED"
          event_id := some e.event_id
          title := some e.title
          url := some e.url
          prices := some e.yes_bids
          total_value := some total_value
          profit := some profit
          profit_percent := some profit_percent
          liquidity := some e.total_liquidity
          num_outcomes := some e.yes_bids.length }

/-- Python values as they arrive from a decoded JSON websocket message.
`num` covers both `int` and `float`. -/
inductive PyVal where
  | pnone : PyVal
  | pbool : Bool → PyVal
  | num : ℚ → PyVal
  | str : String → PyVal
  | list : List PyVal → PyVal
  | dict : List (String × PyVal) → PyVal

/-- Python truthiness (`if x:`). -/
def pyTruthy : PyVal → Bool
  | .pnone => false
  | .pbool b => b
  | .num q => decide (q ≠ 0)
  | .str s => decide (s ≠ "")
  | .list l => !l.isEmpty
  | .dict l => !l.isEmpty

/-- Digit-string accumulator used by the `float(str)` model. -/
def natFromDigits : List Char → ℕ → Option ℕ
  | [], acc => some acc
  | c :: rest, acc =>
      if c.isDigit then natFromDigits rest (acc * 10 + (c.toNat - 48)) else none

/-- Model of Python `float(str)` restricted to plain signed decimal literals
(`"0.45"`, `"-3."`, `".5"`); exponents, `inf`/`nan`, underscores and
surrounding whitespace are out of scope for the inputs this code meets.
`none` models a raised-and-caught `ValueError`. -/
def parseFloatLit (s : String) : Option ℚ :=
  let cs := s.toList
  let signed : Bool × List Char :=
    match cs with
    | '-' :: r => (true, r)
    | '+' :: r => (false, r)
    | _ => (false, cs)
  let intPart := signed.2.takeWhile Char.isDigit
  let rest := signed.2.dropWhile Char.isDigit
  match rest with
  | [] =>
      if intPart.isEmpty then none
      else (natFromDigits intPart 0).map
        (fun n => if signed.1 then -(n : ℚ) else (n : ℚ))
  | '.' :: frac =>
      if frac.all Char.isDigit && (!intPart.isEmpty || !frac.isEmpty) then
        match natFromDigits intPart 0, natFromDigits frac 0 with
        | some i, some f =>
            let q : ℚ := (i : ℚ) + (f : ℚ) / ((10 : ℚ) ^ frac.length)
            some (if signed.1 then -q else q)
        | _, _ => none
      else none
  | _ => none

/-- Model of Python `float(x)`: `none` is a raised `ValueError`/`TypeError`
(always caught at every call site of `_extract_prices`). -/
def pyFloat : PyVal → Option ℚ
  | .num q => some q
  | .pbool b => some (if b then 1 else 0)
  | .str s => parseFloatLit s
  | _ => none

/-- One `bids`/`asks` block of `_extract_prices` (websocket.py lines 625-645):
`if key in item and item[key]: try: ... float(arr[0].get("price", 0)) ...
except (ValueError,TypeError,IndexError): pass`.  Only a truthy nonempty
list enters the `float` line; a non-dict first element raises an uncaught
`AttributeError` at `.get`, modelled `.error ()`; a caught parse failure
keeps the prior value. -/
def arrBest (v : Option PyVal) (prior : Option ℚ) : Except Unit (Option ℚ) :=
  match v with
  | some (.list (h :: _)) =>
      match h with
      | .dict hd => .ok (updOpt (pyFloat ((alookup hd "price").getD (.num 0))) prior)
      | _ => .error ()
  | _ => .ok prior

/-- The `ask` after the flat `price` field (treated as ask) is read. -/
def priceAsk (items : List (String × PyVal)) : Option ℚ :=
  match alookup items "price" with
  | some v => pyFloat v
  | none => none

/-- The `bid` after the `best_bid` field is read. -/
def bestBid (items : List (String × PyVal)) : Option ℚ :=
  match alookup items "best_bid" with
  | some v => pyFloat v
  | none => none

/-- The `ask` after the `best_ask` field is read (a parse failure keeps the
value the `price` field produced). -/
def bestAsk (items : List (String × PyVal)) : Option ℚ :=
  match alookup items "best_ask" with
  | some v => updOpt (pyFloat v) (priceAsk items)
  | none => priceAsk items

/-- `RealtimeArbitrageDetector._extract_prices` (websocket.py lines 603-647):
`price` (as ask), then `best_bid`/`best_ask`, then the `bids`/`asks` depth
arrays via `arrBest`. -/
def extract_prices (items : List (String × PyVal)) :
    Except Unit (Option ℚ × Option ℚ) :=
  match arrBest (alookup items "bids") (bestBid items) with
  | .error e => .error e
  | .ok bid1 =>
      match arrBest (alookup items "asks") (bestAsk items) with
      | .error e => .error e
      | .ok ask2 => .ok (bid1, ask2)

/-- Key-independent rounding used by the dedup key: round half to even,
after scaling by 10, matching `f"{x:.1f}"` on the values met here. -/
def roundHalfEven (x : ℚ) : ℤ :=
  let f : ℤ := ⌊x⌋
  let r : ℚ := x - f
  if r < 1/2 then f
  else if 1/2 < r then f + 1
  else if f % 2 = 0 then f else f + 1

/-- One-decimal formatting, the `:.1f` of the dedup key. -/
def fmtDot1 (q : ℚ) : String :=
  let n := roundHalfEven (q * 10)
  let a := n.natAbs
  let body := toString (a / 10) ++ "." ++ toString (a % 10)
  if n < 0 then "-" ++ body else body

/-- The dedup key of websocket.py line 592:
`f"{opp.get('type')}_{opp.get('market_id', opp.get('event_id'))}_{opp.get('profit_percent', 0):.1f}"`. -/
def dedupKey (o : Opp) : String :=
  o.type ++ "_" ++ (o.market_id.getD (o.event_id.getD "None")) ++ "_"
    ++ fmtDot1 (o.profit_percent.getD 0)

/-- `RealtimeArbitrageDetector` state (websocket.py lines 415-447).
`on_opportunity_calls` is the log of invocations of a registered
`on_opportunity` callback. -/
structure Detector where
  min_profit : ℚ
  min_liquidity : ℚ
  binary_markets : List (String × MarketState) := []
  token_to_market : List (String × String) := []
  negrisk_events : List (String × NegRiskEventState) := []
  token_to_event : List (String × String) := []
  seen_opportunities : List String := []
  on_opportunity_calls : List Opp := []
  messages_processed : ℕ := 0
  opportunities_found : ℕ := 0
  deriving DecidableEq

/-- Binary-market half of `_process_single_update`: the updated
`binary_markets` registry. -/
def binaryAfter (t2m : List (String × String)) (bm : List (String × MarketState))
    (s : String) (bid ask : Option ℚ) (now : ℕ) : List (String × MarketState) :=
  match alookup t2m s with
  | none => bm
  | some mid =>
      match alookup bm mid with
      | none => bm
      | some st => ainsert bm mid (st.update_price s bid ask now)

/-- Binary-market half of `_process_single_update`: the opportunities the two
checks report from the just-updated state (underpriced first). -/
def binaryOpps (t2m : List (String × String)) (bm : List (String × MarketState))
    (minp : ℚ) (s : String) (bid ask : Option ℚ) (now : ℕ) : List Opp :=
  match alookup t2m s with
  | none => []
  | some mid =>
      match alookup bm mid with
      | none => []
      | some st =>
          let st' := st.update_price s bid ask now
          (st'.check_underpriced minp).toList ++ (st'.check_overpriced minp).toList

/-- NegRisk half of `_process_single_update`: the updated event registry. -/
def negAfter (t2e : List (String × String)) (ne : List (String × NegRiskEventState))
    (s : String) (bid ask : Option ℚ) (now : ℕ) : List (String × NegRiskEventState) :=
  match alookup t2e s with
  | none => ne
  | some eid =>
      match alookup ne eid with
      | none => ne
      | some st => ainsert ne eid (st.update_price s bid ask now)

/-- NegRisk half of `_process_single_update`: the reported opportunities. -/
def negOpps (t2e : List (String × String)) (ne : List (String × NegRiskEventState))
    (minp : ℚ) (s : String) (bid ask : Option ℚ) (now : ℕ) : List Opp :=
  match alookup t2e s with
  | none => []
  | some eid =>
      match alookup ne eid with
      | none => []
      | some st =>
          let st' := st.update_price s bid ask now
          (st'.check_underpriced minp).toList ++ (st'.check_overpriced minp).toList

/-- The dedup loop of `_process_single_update` (websocket.py lines 589-599):
returns (new seen set, new found counter, newly emitted opportunities). -/
def dedupLoop (seen : List String) (found : ℕ) :
    List Opp → List String × ℕ × List Opp
  | [] => (seen, found, [])
  | o :: rest =>
      let k := dedupKey o
      if k ∈ seen then dedupLoop seen found rest
      else
        let r := dedupLoop (k :: seen) (found + 1) rest
        (r.1, r.2.1, o :: r.2.2)

/-- `RealtimeArbitrageDetector._process_single_update` (websocket.py lines
542-601).  A truthy unhashable `asset_id` (list/dict) raises `TypeError` at
`token_id in self.token_to_market`; that and the `_extract_prices`
`AttributeError` are the `.error` cases. -/
def process_single_update (d : Detector) (v : PyVal) (now : ℕ) :
    Except Unit (Detector × List Opp) :=
  match v with
  | .dict items =>
      let token := (alookup items "asset_id").getD .pnone
      if pyTruthy token = false then .ok (d, [])
      else
        match extract_prices items with
        | .error e => .error e
        | .ok (bid, ask) =>
            match token with
            | .list _ => .error ()
            | .dict _ => .error ()
            | .str s =>
                let bm' := binaryAfter d.token_to_market d.binary_markets s bid ask now
                let bops := binaryOpps d.token_to_market d.binary_markets d.min_profit s bid ask now
                let ne' := negAfter d.token_to_event d.negrisk_events s bid ask now
                let nops := negOpps d.token_to_event d.negrisk_events d.min_profit s bid ask now
                let r := dedupLoop d.seen_opportunities d.opportunities_found (bops ++ nops)
                .ok ({ d with
                        binary_markets := bm'
                        negrisk_events := ne'
                        seen_opportunities := r.1
                        opportunities_found := r.2.1
                        on_opportunity_calls := d.on_opportunity_calls ++ r.2.2 },
                     r.2.2)
            | _ => .ok (d, [])
  | _ => .ok (d, [])

/-- Batch part of `process_message`: process each tick in order and
concatenate the results; an uncaught exception aborts the loop. -/
def processList (d : Detector) (now : ℕ) :
    List PyVal → Except Unit (Detector × List Opp)
  | [] => .ok (d, [])
  | item :: rest =>
      match process_single_update d item now with
      | .error e => .error e
      | .ok (d', opps) =>
          match processList d' now rest with
          | .error e => .error e
          | .ok (d'', more) => .ok (d'', opps ++ more)

/-- `RealtimeArbitrageDetector.process_message` (websocket.py lines 524-541). -/
def process_message (d : Detector) (v : PyVal) (now : ℕ) :
    Except Unit (Detector × List Opp) :=
  let d1 := { d with messages_processed := d.messages_processed + 1 }
  match v with
  | .list items => processList d1 now items
  | _ => process_single_update d1 v now

/-- `RealtimeArbitrageDetector.clear_seen` (websocket.py lines 649-651). -/
def Detector.clear_seen (d : Detector) : Detector :=
  { d with seen_opportunities := [] }

/-- The opportunity list of a detector-call result (`none` = it raised). -/
def resultOpps : Except Unit (Detector × List Opp) → Option (List Opp)
  | .ok (_, l) => some l
  | .error _ => none

/-- Whether a detector-call result is an uncaught exception. -/
def isRaise {α : Type} : Except Unit α → Bool
  | .error _ => true
  | .ok _ => false

/-- `PositionStatus` (paper_trading/models.py). -/
inductive PositionStatus where
  | OPEN : PositionStatus
  | CLOSED : PositionStatus
  deriving DecidableEq

/-- `Position` (paper_trading/models.py); the random uuid `id` is omitted,
positions are stored in creation order. -/
structure Position where
  market_id : String
  question : String
  arb_type : String
  entry_time : ℕ
  entry_cost : ℚ
  size : ℚ
  expected_profit : ℚ
  profit_percent : ℚ
  status : PositionStatus := .OPEN
  close_time : Option ℕ := none
  actual_profit : Option ℚ := none
  deriving DecidableEq

/-- `Trade` (paper_trading/models.py); the random uuid `id` is omitted. -/
structure Trade where
  timestamp : ℕ
  market_id : String
  arb_type : String
  side : String
  price : ℚ
  size : ℚ
  total : ℚ
  deriving DecidableEq

/-- `PaperTradingEngine` (paper_trading/engine.py lines 29-56); the
`TradingSession` aggregates are inlined as `session_*` fields. -/
structure PaperTradingEngine where
  initial_balance : ℚ := 10000
  balance : ℚ := 10000
  position_size : ℚ := 100
  max_position_pct : ℚ := 1/10
  positions : List Position := []
  trades : List Trade := []
  session_total_trades : ℕ := 0
  session_winning_trades : ℕ := 0
  session_total_pnl : ℚ := 0
  opportunities_seen : ℕ := 0
  opportunities_executed : ℕ := 0
  opportunities_skipped : ℕ := 0
  deriving DecidableEq

/-- `pat in s` for Python strings (substring containment). -/
def listHasInfix (pat : List Char) : List Char → Bool
  | [] => pat.isEmpty
  | c :: rest => pat.isPrefixOf (c :: rest) || listHasInfix pat rest

/-- Python `pat in s` on strings. -/
def strContains (s pat : String) : Bool := listHasInfix pat.toList s.toList

/-- `PaperTradingEngine._calculate_size` (engine.py lines 151-168): the
requested `position_size` capped at 5% of the opportunity's liquidity;
0 when liquidity is absent, zero or negative. -/
def PaperTradingEngine.calculate_size (e : PaperTradingEngine) (o : Opp) : ℚ :=
  let liquidity := o.liquidity.getD 0
  if liquidity ≤ 0 then 0
  else min e.position_size (liquidity * (5/100))

/-- Cost and expected return of the branch on the arb-type substring
(engine.py lines 70-86): `none` is the unrecognized-type case. -/
def costRet (arb_type : String) (total_cost total_value : Option ℚ) (size : ℚ) :
    Option (ℚ × ℚ) :=
  if strContains arb_type "UNDERPRICED" then
    some (size * total_cost.getD (97/100), size)
  else if strContains arb_type "OVERPRICED" then
    some (size, size * total_value.getD (103/100))
  else none

/-- `PaperTradingEngine.execute_opportunity` (engine.py lines 58-149).
The default argument of `opportunity.get("profit_percent", (profit / cost) * 100)`
is evaluated eagerly in Python, so a reachable `cost == 0` (an UNDERPRICED
opportunity whose dict carries `total_cost = 0`) raises `ZeroDivisionError`;
that is the `.error` case. -/
def PaperTradingEngine.execute_opportunity (e : PaperTradingEngine) (o : Opp)
    (now : ℕ) : Except Unit (PaperTradingEngine × Bool) :=
  let e1 := { e with opportunities_seen := e.opportunities_seen + 1 }
  let size := e1.calculate_size o
  if size ≤ 0 then
    .ok ({ e1 with opportunities_skipped := e1.opportunities_skipped + 1 }, false)
  else
    let arb_type := o.type
    match costRet arb_type o.total_cost o.total_value size with
    | none =>
        .ok ({ e1 with opportunities_skipped := e1.opportunities_skipped + 1 }, false)
    | some cr =>
        let cost := cr.1
        let expected_return := cr.2
        if cost > e1.balance then
          .ok ({ e1 with opportunities_skipped := e1.opportunities_skipped + 1 }, false)
        else
          let profit := expected_return - cost
          if cost = 0 then .error ()
          else
            let profit_percent := o.profit_percent.getD (profit / cost * 100)
            let position : Position :=
              { market_id := o.market_id.getD (o.event_id.getD "")
                question := (o.question.getD (o.title.getD "")).take 50
                arb_type := arb_type
                entry_time := now
                entry_cost := cost
                size := size
                expected_profit := profit
                profit_percent := profit_percent
                status := .CLOSED
                close_time := some now
                actual_profit := some profit }
            let trade : Trade :=
              { timestamp := now
                market_id := position.market_id
                arb_type := arb_type
                side := "ARB"
                price := if strContains arb_type "UNDERPRICED" then
                    o.total_cost.getD (97/100) else 1
                size := size
                total := cost }
            .ok ({ e1 with
                    balance := e1.balance - cost + expected_return
                    positions := e1.positions ++ [position]
                    trades := e1.trades ++ [trade]
                    opportunities_executed := e1.opportunities_executed + 1
                    session_total_trades := e1.session_total_trades + 1
                    session_winning_trades := e1.session_winning_trades
                      + (if 0 < profit then 1 else 0)
                    session_total_pnl := e1.session_total_pnl + profit },
                 true)

/-- Modelled from the spec: the realistic-execution variant of
`PaperTradingEngine` — configurable `liquidity_cap_pct` and `failure_rate`,
a distinct `opportunities_failed` counter and an `on_failure` callback — is
referenced by `tests/test_paper_trading.py`, `dashboard.py`, `presets.py`
and `summary_chart.py`, but the `engine.py` under src lacks all of it.
Modelled from spec §4.4 (steps 1-8) and its failure-taxonomy paragraph;
`rand` is the injectable uniform draw, `on_failure_calls` the callback log,
and the commit step is modelled as the balance update plus the executed
counter. -/
structure SimEngine where
  balance : ℚ := 10000
  position_size : ℚ := 100
  liquidity_cap_pct : ℚ := 5/100
  failure_rate : ℚ := 0
  opportunities_seen : ℕ := 0
  opportunities_executed : ℕ := 0
  opportunities_skipped : ℕ := 0
  opportunities_failed : ℕ := 0
  on_failure_calls : List (Opp × String) := []
  deriving DecidableEq

/-- Modelled from the spec: candidate size = configured target position
size capped by `liquidity_cap_pct` of the opportunity's liquidity
(spec §4.4 step 2). -/
def SimEngine.calculate_size (e : SimEngine) (o : Opp) : ℚ :=
  let liquidity := o.liquidity.getD 0
  if liquidity ≤ 0 then 0
  else min e.position_size (liquidity * e.liquidity_cap_pct)

/-- Modelled from the spec: `execute_opportunity` with the simulated-failure
gate (spec §4.4): sizing skip, type branch, failure draw against
`failure_rate` (on failure: balance untouched, `failed` counter, callback
with reason "execution_failed", return false), balance skip, commit. -/
def SimEngine.execute_opportunity (e : SimEngine) (o : Opp) (rand : ℚ) :
    SimEngine × Bool :=
  let e1 := { e with opportunities_seen := e.opportunities_seen + 1 }
  let size := e1.calculate_size o
  if size ≤ 0 then
    ({ e1 with opportunities_skipped := e1.opportunities_skipped + 1 }, false)
  else
    match costRet o.type o.total_cost o.total_value size with
    | none =>
        ({ e1 with opportunities_skipped := e1.opportunities_skipped + 1 }, false)
    | some cr =>
        if rand < e1.failure_rate then
          ({ e1 with
              opportunities_failed := e1.opportunities_failed + 1
              on_failure_calls := e1.on_failure_calls ++ [(o, "execution_failed")] },
           false)
        else if cr.1 > e1.balance then
          ({ e1 with opportunities_skipped := e1.opportunities_skipped + 1 }, false)
        else
          ({ e1 with
              balance := e1.balance - cr.1 + cr.2
              opportunities_executed := e1.opportunities_executed + 1 },
           true)

/-! Helper constructors naming the exact opportunity records the four checks
build, and the safety predicate for `process_message` inputs. -/

/-- The record `MarketState.check_underpriced` returns. -/
def binaryUnderOpp (m : MarketState) (ya na : ℚ) : Opp :=
  { type := "BINARY_UNDERPRICED"
    market_id := some m.market_id
    question := some m.question
    url := some m.url
    yes_ask := some ya
    no_ask := some na
    total_cost := some (ya + na)
    profit := some (1 - (ya + na))
    profit_percent := some ((1 - (ya + na)) / (ya + na) * 100)
    liquidity := some m.liquidity
    category := some m.category }

/-- The record `MarketState.check_overpriced` returns. -/
def binaryOverOpp (m : MarketState) (yb nb : ℚ) : Opp :=
  { type := "BINARY_OVERPRICED"
    market_id := some m.market_id
    question := some m.question
    url := some m.url
    yes_bid := some yb
    no_bid := some nb
    total_value := some (yb + nb)
    profit := some (yb + nb - 1)
    profit_percent := some ((yb + nb - 1) / 1 * 100)
    liquidity := some m.liquidity
    category := some m.category }

/-- The record `NegRiskEventState.check_underpriced` returns. -/
def negUnderOpp (e : NegRiskEventState) : Opp :=
  { type := "NEGRISK_UNDERPRICED"
    event_id := some e.event_id
    title := some e.title
    url := some e.url
    prices := some e.yes_prices
    total_cost := some (asum e.yes_prices)
    profit := some (1 - asum e.yes_prices)
    profit_percent := some ((1 - asum e.yes_prices) / asum e.yes_prices * 100)
    liquidity := some e.total_liquidity
    num_outcomes := some e.yes_prices.length }

/-- The record `NegRiskEventState.check_overpriced` returns. -/
def negOverOpp (e : NegRiskEventState) : Opp :=
  { type := "NEGRISK_OVERPRICED"
    event_id := some e.event_id
    title := some e.title
    url := some e.url
    prices := some e.yes_bids
    total_value := some (asum e.yes_bids)
    profit := some (asum e.yes_bids - 1)
    profit_percent := some ((asum e.yes_bids - 1) / 1 * 100)
    liquidity := some e.total_liquidity
    num_outcomes := some e.yes_bids.length }

/-- The engine state a skipped `execute_opportunity` call leaves behind. -/
def skipStep (e : PaperTradingEngine) : PaperTradingEngine :=
  { e with
    opportunities_seen := e.opportunities_seen + 1
    opportunities_skipped := e.opportunities_skipped + 1 }

/-- A `bids`/`asks` value whose processing cannot raise: anything except a
nonempty array whose first element is not a dict. -/
def goodArrVal : Option PyVal → Bool
  | some (.list (h :: _)) =>
      match h with
      | .dict _ => true
      | _ => false
  | _ => true

/-- Ticks on which `_process_single_update` cannot raise. -/
def tickSafe : PyVal → Bool
  | .dict items =>
      let token := (alookup items "asset_id").getD .pnone
      if pyTruthy token then
        goodArrVal (alookup items "bids") && goodArrVal (alookup items "asks")
          && (match token with
              | .list _ => false
              | .dict _ => false
              | _ => true)
      else true
  | _ => true

/-- Messages on which `process_message` cannot raise. -/
def msgSafe : PyVal → Bool
  | .list items => items.all tickSafe
  | v => tickSafe v

/-! Concrete states and inputs used by the counterexamples and witnesses. -/

/-- A binary market with crossing stored asks (0.4 + 0.45 < 1). -/
def wMarketU : MarketState :=
  { market_id := "m1"
    question := "Q?"
    slug := "test"
    liquidity := 50000
    category := "crypto"
    yes_token_id := "yes1"
    no_token_id := "no1"
    yes_ask := some (2/5)
    no_ask := some (9/20) }

/-- A binary market quoted on both sides (asks 0.4/0.4, bids 0.6/0.6). -/
def wMarket : MarketState :=
  { wMarketU with
    no_ask := some (2/5)
    yes_bid := some (3/5)
    no_bid := some (3/5) }

/-- A NegRisk event with three tracked outcomes:
asks sum to 0.9, bids sum to 1.2. -/
def wNeg : NegRiskEventState :=
  { event_id := "e1"
    title := "T"
    slug := "ev"
    total_liquidity := 20000
    markets := [("n1", "t1", "q1"), ("n2", "t2", "q2"), ("n3", "t3", "q3")]
    yes_prices := [("t1", 3/10), ("t2", 3/10), ("t3", 3/10)]
    yes_bids := [("t1", 2/5), ("t2", 2/5), ("t3", 2/5)] }

/-- A fresh detector with no registrations. -/
def wDet0 : Detector := { min_profit := 1, min_liquidity := 1000 }

/-- A detector monitoring `wMarketU`. -/
def wDet : Detector :=
  { min_profit := 1
    min_liquidity := 1000
    binary_markets := [("m1", wMarketU)]
    token_to_market := [("yes1", "m1"), ("no1", "m1")] }

/-- A tick quoting the YES ask of `wMarketU` at 0.4. -/
def wTick : PyVal := .dict [("asset_id", .str "yes1"), ("best_ask", .num (2/5))]

/-- A tick whose `bids` array's first element is not a dict:
`bids[0].get(...)` raises an uncaught `AttributeError`. -/
def badArrTick : PyVal := .dict [("asset_id", .str "a"), ("bids", .list [.num 1])]

/-- A tick with a truthy unhashable `asset_id`:
`token_id in self.token_to_market` raises an uncaught `TypeError`. -/
def unhashableTick : PyVal := .dict [("asset_id", .list [.num 1])]

/-- A tick for a monitored token whose price field parses to nothing. -/
def badPriceTick : PyVal := .dict [("asset_id", .str "yes1"), ("price", .str "zz")]

/-- The opportunity dict that makes `execute_opportunity` raise
`ZeroDivisionError`: an UNDERPRICED type with `total_cost = 0`. -/
def zeroCostOpp : Opp :=
  { type := "BINARY_UNDERPRICED"
    total_cost := some 0
    liquidity := some 1000 }

/-- A plain profitable underpriced opportunity dict. -/
def wOpp : Opp :=
  { type := "BINARY_UNDERPRICED"
    market_id := some "0xtest"
    question := some "Test"
    total_cost := some (97/100)
    profit_percent := some (309/100)
    liquidity := some 50000 }

/-- A foreign-token counterexample market with `last_update = 0`. -/
def w9m : MarketState :=
  { market_id := "m"
    question := "q"
    slug := "s"
    liquidity := 0
    category := "c"
    yes_token_id := "Y"
    no_token_id := "N" }

/-- Position record of a successful execution (engine.py lines 98-114). -/
def execPosition (e : PaperTradingEngine) (o : Opp) (now : ℕ) (cost ret : ℚ) : Position :=
  { market_id := o.market_id.getD (o.event_id.getD "")
    question := (o.question.getD (o.title.getD "")).take 50
    arb_type := o.type
    entry_time := now
    entry_cost := cost
    size := e.calculate_size o
    expected_profit := ret - cost
    profit_percent := o.profit_percent.getD ((ret - cost) / cost * 100)
    status := .CLOSED
    close_time := some now
    actual_profit := some (ret - cost) }

/-- Trade record of a successful execution (engine.py lines 121-131). -/
def execTrade (e : PaperTradingEngine) (o : Opp) (now : ℕ) (cost : ℚ) : Trade :=
  { timestamp := now
    market_id := o.market_id.getD (o.event_id.getD "")
    arb_type := o.type
    side := "ARB"
    price := if strContains o.type "UNDERPRICED" then o.total_cost.getD (97/100) else 1
    size := e.calculate_size o
    total := cost }

/-- The engine state a successful `execute_opportunity` call leaves behind. -/
def execStep (e : PaperTradingEngine) (o : Opp) (now : ℕ) (cost ret : ℚ) : PaperTradingEngine :=
  { e with
    opportunities_seen := e.opportunities_seen + 1
    balance := e.balance - cost + ret
    positions := e.positions ++ [execPosition e o now cost ret]
    trades := e.trades ++ [execTrade e o now cost]
    opportunities_executed := e.opportunities_executed + 1
    session_total_trades := e.session_total_trades + 1
    session_winning_trades := e.session_winning_trades + (if 0 < ret - cost then 1 else 0)
    session_total_pnl := e.session_total_pnl + (ret - cost) }

/-- The realistic-simulation engine used for the failure-gate witness:
failure rate 1 (every draw fails), as in the repository's own tests. -/
def wSim : SimEngine := { failure_rate := 1 }

/-- A 1%-cap simulation engine with a large requested size. -/
def wSim2 : SimEngine := { position_size := 1000, liquidity_cap_pct := 1/100 }

/-- The sizing engine of the liquidity-cap witness. -/
def wEng2 : PaperTradingEngine := { position_size := 1000 }

/-- An underpriced opportunity on a $10k-liquidity market. -/
def wOppLiq : Opp :=
  { type := "BINARY_UNDERPRICED"
    total_cost := some (97/100)
    liquidity := some 10000 }

/-- An opportunity whose market reports zero liquidity. -/
def wOppLiq0 : Opp :=
  { type := "BINARY_UNDERPRICED"
    total_cost := some (97/100)
    liquidity := some 0 }

/-- The opportunity record the `wDet` detector emits for `wTick` (and for
`badPriceTick`): the stored asks, 0.4 + 0.45, price below $1. -/
def wOppD : Opp := binaryUnderOpp wMarketU (2/5) (9/20)

/-- The state/output pair `_process_single_update` produces for a truthy
string token that passed price extraction (the main branch of
`process_single_update`, of which it is definitionally the body). -/
def psuStep (d : Detector) (s : String) (bid ask : Option ℚ) (now : ℕ) :
    Detector × List Opp :=
  let bops := binaryOpps d.token_to_market d.binary_markets d.min_profit s bid ask now
  let nops := negOpps d.token_to_event d.negrisk_events d.min_profit s bid ask now
  let r := dedupLoop d.seen_opportunities d.opportunities_found (bops ++ nops)
  ({ d with
      binary_markets := binaryAfter d.token_to_market d.binary_markets s bid ask now
      negrisk_events := negAfter d.token_to_event d.negrisk_events s bid ask now
      seen_opportunities := r.1
      opportunities_found := r.2.1
      on_opportunity_calls := d.on_opportunity_calls ++ r.2.2 }, r.2.2)

/-- Detector state after `wDet` processes `wTick` once at time 0. -/
def wDet1 : Detector :=
  { wDet with
    binary_markets := [("m1", wMarketU)]
    seen_opportunities := [dedupKey wOppD]
    opportunities_found := 1
    on_opportunity_calls := [wOppD] }

/-- Detector state after the identical tick is processed again at time 1. -/
def wDet2 : Detector :=
  { wDet1 with binary_markets := [("m1", { wMarketU with last_update := 1 })] }

/-! Theorems. -/

/-- C1: `MarketState.check_underpriced` returns absent when either ask is
absent or non-positive; with both present and strictly positive it returns
absent when `yes_ask + no_ask ≥ 1` (including exactly 1), and for
`total_cost = yes_ask + no_ask < 1`, `profit = 1 - total_cost` and
`profit_percent = profit / total_cost * 100`, it returns the opportunity
record (carrying these values, the liquidity, URL and per-token prices)
exactly when `profit_percent ≥ min_profit_percent`. -/
theorem check_underpriced_spec (m : MarketState) (minp ya na : ℚ) :
    (m.yes_ask = none → m.check_underpriced minp = none) ∧
    (m.no_ask = none → m.check_underpriced minp = none) ∧
    (m.yes_ask = some ya → ya ≤ 0 → m.check_underpriced minp = none) ∧
    (m.no_ask = some na → na ≤ 0 → m.check_underpriced minp = none) ∧
    (m.yes_ask = some ya → m.no_ask = some na → 0 < ya → 0 < na →
      (1 ≤ ya + na → m.check_underpriced minp = none) ∧
      (ya + na < 1 →
        (m.check_underpriced minp = some (binaryUnderOpp m ya na) ↔
          minp ≤ (1 - (ya + na)) / (ya + na) * 100) ∧
        ((1 - (ya + na)) / (ya + na) * 100 < minp →
          m.check_underpriced minp = none))) := by
  refine ⟨?_, ?_, ?_, ?_, ?_⟩
  · intro h
    simp [MarketState.check_underpriced, h]
  · intro h
    cases h' : m.yes_ask <;> simp [MarketState.check_underpriced, h, h']
  · intro h hle
    cases h' : m.no_ask <;> simp [MarketState.check_underpriced, h, h', hle]
  · intro h hle
    cases h' : m.yes_ask <;> simp [MarketState.check_underpriced, h, h', hle]
  · intro hy hn hya hna
    constructor
    · intro hge
      simp [MarketState.check_underpriced, hy, hn, not_le.mpr hya, not_le.mpr hna, hge]
    · intro hlt
      constructor
      · by_cases hpp : (1 - (ya + na)) / (ya + na) * 100 < minp
        · simp [MarketState.check_underpriced, hy, hn, not_le.mpr hya, not_le.mpr hna,
            not_le.mpr hlt, hpp, not_le.mpr hpp]
        · simp [MarketState.check_underpriced, hy, hn, not_le.mpr hya, not_le.mpr hna,
            not_le.mpr hlt, hpp, not_lt.mp hpp, binaryUnderOpp]
      · intro hpp
        simp [MarketState.check_underpriced, hy, hn, not_le.mpr hya, not_le.mpr hna,
          not_le.mpr hlt, hpp]

/-- C1 witness: `wMarket` (asks 0.4/0.4) with threshold 1% reports the
underpriced opportunity with profit percent 25. -/
theorem check_underpriced_spec_witness :
    wMarket.check_underpriced 1 = some (binaryUnderOpp wMarket (2/5) (2/5)) := by
  have h := (check_underpriced_spec wMarket 1 (2/5) (2/5)).2.2.2.2 rfl rfl
    (by norm_num) (by norm_num)
  exact ((h.2 (by norm_num)).1).mpr (by norm_num)

/-- C6: `NegRiskEventState.check_underpriced` returns absent whenever fewer
than 3 yes asks are tracked, regardless of their sum; with N ≥ 3 entries and
`total_cost` their sum it returns absent if `total_cost ≥ 1` or
`total_cost ≤ 0.1`, and otherwise returns the opportunity with
`profit = 1 - total_cost` and `profit_percent = (1 - total_cost)/total_cost * 100`
exactly when `profit_percent ≥ min_profit_percent`. -/
theorem negrisk_check_underpriced_spec (e : NegRiskEventState) (minp : ℚ) :
    (e.yes_prices.length < 3 → e.check_underpriced minp = none) ∧
    (3 ≤ e.yes_prices.length →
      (1 ≤ asum e.yes_prices → e.check_underpriced minp = none) ∧
      (asum e.yes_prices ≤ 1/10 → e.check_underpriced minp = none) ∧
      (1/10 < asum e.yes_prices → asum e.yes_prices < 1 →
        (e.check_underpriced minp = some (negUnderOpp e) ↔
          minp ≤ (1 - asum e.yes_prices) / asum e.yes_prices * 100) ∧
        ((1 - asum e.yes_prices) / asum e.yes_prices * 100 < minp →
          e.check_underpriced minp = none))) := by
  constructor
  · intro h
    simp [NegRiskEventState.check_underpriced, h]
  · intro hlen
    refine ⟨?_, ?_, ?_⟩
    · intro hge
      simp only [NegRiskEventState.check_underpriced]
      rw [if_neg (not_lt.mpr hlen), if_pos hge]
    · intro hle
      simp only [NegRiskEventState.check_underpriced]
      rw [if_neg (not_lt.mpr hlen)]
      by_cases hge : 1 ≤ asum e.yes_prices
      · rw [if_pos hge]
      · rw [if_neg hge, if_pos hle]
    · intro hlow hhigh
      simp only [NegRiskEventState.check_underpriced]
      rw [if_neg (not_lt.mpr hlen), if_neg (not_le.mpr hhigh), if_neg (not_le.mpr hlow)]
      refine ⟨?_, ?_⟩
      · by_cases hpp : (1 - asum e.yes_prices) / asum e.yes_prices * 100 < minp
        · rw [if_pos hpp]
          exact ⟨fun h' => Option.noConfusion h', fun hle => absurd hpp (not_lt.mpr hle)⟩
        · rw [if_neg hpp]
          exact ⟨fun _ => not_lt.mp hpp, fun _ => rfl⟩
      · intro hpp
        rw [if_pos hpp]

/-- C6 witness: `wNeg` (three asks of 0.3 each, sum 0.9) with threshold 1%
reports the NegRisk underpriced opportunity; its profit percent is 100/9. -/
theorem negrisk_check_underpriced_spec_witness :
    wNeg.check_underpriced 1 = some (negUnderOpp wNeg) := by
  have h := (negrisk_check_underpriced_spec wNeg 1).2 (by norm_num [wNeg])
  exact (h.2.2 (by norm_num [wNeg, asum]) (by norm_num [wNeg, asum])).1.mpr
    (by norm_num [wNeg, asum])

/-- C7: for `MarketState.check_overpriced` (both bids present and positive)
and `NegRiskEventState.check_overpriced` (at least 3 tracked yes bids): a bid
sum ≤ 1 (including exactly 1) gives absent; for a sum > 1,
`profit = sum - 1` and `profit_percent = profit / 1 * 100` (the cost basis is
the $1.00 mint cost, never the total value), and the opportunity is returned
exactly when `profit_percent ≥ min_profit_percent`. -/
theorem check_overpriced_spec (m : MarketState) (e : NegRiskEventState)
    (minp yb nb : ℚ) :
    (m.yes_bid = some yb → m.no_bid = some nb → 0 < yb → 0 < nb →
      (yb + nb ≤ 1 → m.check_overpriced minp = none) ∧
      (1 < yb + nb →
        (m.check_overpriced minp = some (binaryOverOpp m yb nb) ↔
          minp ≤ (yb + nb - 1) / 1 * 100) ∧
        ((yb + nb - 1) / 1 * 100 < minp → m.check_overpriced minp = none))) ∧
    (3 ≤ e.yes_bids.length →
      (asum e.yes_bids ≤ 1 → e.check_overpriced minp = none) ∧
      (1 < asum e.yes_bids →
        (e.check_overpriced minp = some (negOverOpp e) ↔
          minp ≤ (asum e.yes_bids - 1) / 1 * 100) ∧
        ((asum e.yes_bids - 1) / 1 * 100 < minp →
          e.check_overpriced minp = none))) := by
  constructor
  · intro hy hn hyb hnb
    have hcond : ¬(yb ≤ 0 ∨ nb ≤ 0) := by
      rintro (h | h) <;> linarith
    constructor
    · intro hle
      simp only [MarketState.check_overpriced, hy, hn]
      rw [if_neg hcond, if_pos hle]
    · intro hgt
      simp only [MarketState.check_overpriced, hy, hn]
      rw [if_neg hcond, if_neg (not_le.mpr hgt)]
      refine ⟨?_, ?_⟩
      · by_cases hpp : (yb + nb - 1) / 1 * 100 < minp
        · rw [if_pos hpp]
          exact ⟨fun h' => Option.noConfusion h', fun hle => absurd hpp (not_lt.mpr hle)⟩
        · rw [if_neg hpp]
          exact ⟨fun _ => not_lt.mp hpp, fun _ => rfl⟩
      · intro hpp
        rw [if_pos hpp]
  · intro hlen
    constructor
    · intro hle
      simp only [NegRiskEventState.check_overpriced]
      rw [if_neg (not_lt.mpr hlen), if_pos hle]
    · intro hgt
      simp only [NegRiskEventState.check_overpriced]
      rw [if_neg (not_lt.mpr hlen), if_neg (not_le.mpr hgt)]
      refine ⟨?_, ?_⟩
      · by_cases hpp : (asum e.yes_bids - 1) / 1 * 100 < minp
        · rw [if_pos hpp]
          exact ⟨fun h' => Option.noConfusion h', fun hle => absurd hpp (not_lt.mpr hle)⟩
        · rw [if_neg hpp]
          exact ⟨fun _ => not_lt.mp hpp, fun _ => rfl⟩
      · intro hpp
        rw [if_pos hpp]

/-- C7 witness: `wMarket` (bids 0.6/0.6, sum 1.2) and `wNeg` (three bids of
0.4, sum 1.2) both report overpriced opportunities at threshold 1%. -/
theorem check_overpriced_spec_witness :
    wMarket.check_overpriced 1 = some (binaryOverOpp wMarket (3/5) (3/5)) ∧
    wNeg.check_overpriced 1 = some (negOverOpp wNeg) := by
  have h := check_overpriced_spec wMarket wNeg 1 (3/5) (3/5)
  constructor
  · exact ((h.1 rfl rfl (by norm_num) (by norm_num)).2 (by norm_num)).1.mpr (by norm_num)
  · exact ((h.2 (by norm_num [wNeg])).2 (by norm_num [wNeg, asum])).1.mpr
      (by norm_num [wNeg, asum])

/-- C9 counterexample: `update_price` with a token id matching neither slot
is not a no-op — the source sets `last_update` unconditionally, so the
recorded update time changes. -/
theorem update_price_foreign_cex :
    w9m.update_price "Z" none none 1 ≠ w9m := by decide

/-- C9 amended: for a foreign token id, `update_price` leaves every field
except `last_update` unchanged but still refreshes `last_update`; for a
token id matching the YES (resp. the NO but not the YES) slot, exactly the
provided fields are overwritten, absent fields keep their prior value, and
`last_update` is refreshed. -/
theorem update_price_frame_amended (m : MarketState) (tok : String)
    (bid ask : Option ℚ) (now : ℕ) :
    (tok ≠ m.yes_token_id → tok ≠ m.no_token_id →
      m.update_price tok bid ask now = { m with last_update := now }) ∧
    (tok = m.yes_token_id →
      m.update_price tok bid ask now =
        { m with
            yes_bid := updOpt bid m.yes_bid
            yes_ask := updOpt ask m.yes_ask
            last_update := now }) ∧
    (tok ≠ m.yes_token_id → tok = m.no_token_id →
      m.update_price tok bid ask now =
        { m with
            no_bid := updOpt bid m.no_bid
            no_ask := updOpt ask m.no_ask
            last_update := now }) := by
  refine ⟨?_, ?_, ?_⟩
  · intro h1 h2
    simp [MarketState.update_price, h1, h2]
  · intro h1
    subst h1
    simp [MarketState.update_price]
  · intro h1 h2
    subst h2
    simp [MarketState.update_price, h1]

/-- C9 witness: the amended theorem at `w9m` — a foreign token id refreshes
only the clock, and a YES-slot update with only a bid keeps the asks. -/
theorem update_price_frame_amended_witness :
    w9m.update_price "Z" none none 1 = { w9m with last_update := 1 } ∧
    w9m.update_price "Y" (some (1/2)) none 1 =
      { w9m with yes_bid := some (1/2), last_update := 1 } := by
  constructor
  · exact (update_price_frame_amended w9m "Z" none none 1).1 (by decide) (by decide)
  · have h := (update_price_frame_amended w9m "Y" (some (1/2)) none 1).2.1 rfl
    simpa [updOpt, w9m] using h

/-! Unfolding lemmas for `execute_opportunity`. -/

theorem execute_eq_some (e : PaperTradingEngine) (o : Opp) (now : ℕ) (cost ret : ℚ)
    (hcr : costRet o.type o.total_cost o.total_value (e.calculate_size o) = some (cost, ret)) :
    e.execute_opportunity o now =
      if e.calculate_size o ≤ 0 then .ok (skipStep e, false)
      else if cost > e.balance then .ok (skipStep e, false)
      else if cost = 0 then .error ()
      else .ok (execStep e o now cost ret, true) := by
  simp only [PaperTradingEngine.calculate_size] at hcr
  simp only [PaperTradingEngine.execute_opportunity, PaperTradingEngine.calculate_size, hcr]
  rfl

theorem execute_eq_none (e : PaperTradingEngine) (o : Opp) (now : ℕ)
    (hcr : costRet o.type o.total_cost o.total_value (e.calculate_size o) = none) :
    e.execute_opportunity o now = .ok (skipStep e, false) := by
  simp only [PaperTradingEngine.calculate_size] at hcr
  simp only [PaperTradingEngine.execute_opportunity, PaperTradingEngine.calculate_size, hcr]
  split_ifs <;> rfl

theorem execute_eq_skip (e : PaperTradingEngine) (o : Opp) (now : ℕ)
    (hsz : e.calculate_size o ≤ 0) :
    e.execute_opportunity o now = .ok (skipStep e, false) := by
  rcases hc : costRet o.type o.total_cost o.total_value (e.calculate_size o) with _ | cr
  · exact execute_eq_none e o now hc
  · rw [execute_eq_some e o now cr.1 cr.2 (by rw [hc]), if_pos hsz]

/-- C5: whenever `execute_opportunity` returns true, the new balance is
exactly `balance - cost + return`, the recorded position's expected and
actual profit are exactly `return - cost`, and the session P&L grows by the
same amount; if instead `cost > balance`, the call returns false, the
balance and the position/trade records are left unchanged, and the skipped
counter is incremented. -/
theorem execute_balance_spec (e : PaperTradingEngine) (o : Opp) (now : ℕ)
    (e' : PaperTradingEngine) (cost ret : ℚ)
    (hcr : costRet o.type o.total_cost o.total_value (e.calculate_size o) = some (cost, ret)) :
    (e.execute_opportunity o now = .ok (e', true) →
      e'.balance = e.balance - cost + ret ∧
      e'.positions.map Position.expected_profit =
        e.positions.map Position.expected_profit ++ [ret - cost] ∧
      e'.positions.map Position.actual_profit =
        e.positions.map Position.actual_profit ++ [some (ret - cost)] ∧
      e'.session_total_pnl = e.session_total_pnl + (ret - cost) ∧
      e'.trades.length = e.trades.length + 1) ∧
    (cost > e.balance →
      e.execute_opportunity o now = .ok (skipStep e, false)) := by
  have heq := execute_eq_some e o now cost ret hcr
  constructor
  · intro hex
    rw [heq] at hex
    by_cases hsz : e.calculate_size o ≤ 0
    · rw [if_pos hsz] at hex
      simp at hex
    · rw [if_neg hsz] at hex
      by_cases hb : cost > e.balance
      · rw [if_pos hb] at hex
        simp at hex
      · rw [if_neg hb] at hex
        by_cases h0 : cost = 0
        · rw [if_pos h0] at hex
          exact Except.noConfusion hex
        · rw [if_neg h0] at hex
          injection hex with h
          injection h with h1 h2
          subst h1
          refine ⟨rfl, ?_, ?_, rfl, ?_⟩ <;>
            simp [execStep, execPosition, execTrade]
  · intro hb
    rw [heq]
    by_cases hsz : e.calculate_size o ≤ 0
    · rw [if_pos hsz]
    · rw [if_neg hsz, if_pos hb]

/-- C10 counterexample: `execute_opportunity` does not always increment the
skipped-or-executed counters — an UNDERPRICED opportunity whose dict carries
`total_cost = 0` makes the eagerly evaluated default `(profit / cost) * 100`
raise `ZeroDivisionError`, so the call raises instead of returning. -/
theorem execute_counters_cex :
    ({} : PaperTradingEngine).execute_opportunity zeroCostOpp 0 = .error () := by
  have hst : strContains "BINARY_UNDERPRICED" "UNDERPRICED" = true := by decide
  have hsz : ({} : PaperTradingEngine).calculate_size zeroCostOpp = 50 := by
    simp only [PaperTradingEngine.calculate_size, zeroCostOpp, Option.getD_some]
    rw [if_neg (by norm_num), show (1000 : ℚ) * (5/100) = 50 by norm_num,
      min_eq_right (by norm_num)]
  have hcr : costRet zeroCostOpp.type zeroCostOpp.total_cost zeroCostOpp.total_value
      (({} : PaperTradingEngine).calculate_size zeroCostOpp) = some (0, 50) := by
    rw [hsz]
    simp only [costRet, zeroCostOpp, hst, if_true, Option.getD_some]
    norm_num
  rw [execute_eq_some _ _ _ 0 50 hcr, if_neg (by rw [hsz]; norm_num),
    if_neg (by norm_num), if_pos rfl]

/-- C10 amended: every call of `execute_opportunity` that returns (rather
than raising `ZeroDivisionError` on a zero-cost opportunity) increments
`opportunities_seen` by exactly 1 and exactly one of
`opportunities_executed` / `opportunities_skipped` by exactly 1 (executed
iff it returns true), so the invariant seen = executed + skipped is
preserved by every returning call. -/
theorem execute_counters_amended (e : PaperTradingEngine) (o : Opp) (now : ℕ)
    (e' : PaperTradingEngine) (b : Bool)
    (hex : e.execute_opportunity o now = .ok (e', b)) :
    e'.opportunities_seen = e.opportunities_seen + 1 ∧
    (b = true → e'.opportunities_executed = e.opportunities_executed + 1 ∧
      e'.opportunities_skipped = e.opportunities_skipped) ∧
    (b = false → e'.opportunities_skipped = e.opportunities_skipped + 1 ∧
      e'.opportunities_executed = e.opportunities_executed) ∧
    (e.opportunities_seen = e.opportunities_executed + e.opportunities_skipped →
      e'.opportunities_seen = e'.opportunities_executed + e'.opportunities_skipped) := by
  rcases hc : costRet o.type o.total_cost o.total_value (e.calculate_size o) with _ | ⟨cost, ret⟩
  · rw [execute_eq_none e o now hc] at hex
    injection hex with h
    injection h with h1 h2
    subst h1
    subst h2
    refine ⟨rfl, by simp, fun _ => ⟨rfl, rfl⟩, ?_⟩
    intro hinv
    simp only [skipStep]
    omega
  · rw [execute_eq_some e o now cost ret hc] at hex
    by_cases hsz : e.calculate_size o ≤ 0
    · rw [if_pos hsz] at hex
      injection hex with h
      injection h with h1 h2
      subst h1
      subst h2
      refine ⟨rfl, by simp, fun _ => ⟨rfl, rfl⟩, ?_⟩
      intro hinv
      simp only [skipStep]
      omega
    · rw [if_neg hsz] at hex
      by_cases hb : cost > e.balance
      · rw [if_pos hb] at hex
        injection hex with h
        injection h with h1 h2
        subst h1
        subst h2
        refine ⟨rfl, by simp, fun _ => ⟨rfl, rfl⟩, ?_⟩
        intro hinv
        simp only [skipStep]
        omega
      · rw [if_neg hb] at hex
        by_cases h0 : cost = 0
        · rw [if_pos h0] at hex
          exact Except.noConfusion hex
        · rw [if_neg h0] at hex
          injection hex with h
          injection h with h1 h2
          subst h1
          subst h2
          refine ⟨rfl, fun _ => ⟨rfl, rfl⟩, by simp, ?_⟩
          intro hinv
          simp only [execStep]
          omega

/-- C8: the executed size is the configured target position size capped at a
liquidity fraction of the opportunity's liquidity — never exceeding
`liquidity * cap`, silently reduced to the cap when the requested size
exceeds it; zero liquidity gives size 0 and the call fails as skipped; the
src engine's hardcoded 5% equals the spec-modelled configurable engine at
its default `liquidity_cap_pct`. -/
theorem calculate_size_spec (e : PaperTradingEngine) (se : SimEngine) (o : Opp)
    (L : ℚ) (now : ℕ) :
    (o.liquidity = some L → 0 < L →
      se.calculate_size o ≤ L * se.liquidity_cap_pct ∧
      (L * se.liquidity_cap_pct < se.position_size →
        se.calculate_size o = L * se.liquidity_cap_pct) ∧
      e.calculate_size o ≤ L * (5/100)) ∧
    (o.liquidity = some 0 →
      e.calculate_size o = 0 ∧ se.calculate_size o = 0 ∧
      e.execute_opportunity o now = .ok (skipStep e, false)) ∧
    ({ position_size := e.position_size } : SimEngine).calculate_size o =
      e.calculate_size o := by
  refine ⟨?_, ?_, ?_⟩
  · intro hL hpos
    refine ⟨?_, ?_, ?_⟩
    · simp only [SimEngine.calculate_size, hL, Option.getD_some]
      rw [if_neg (not_le.mpr hpos)]
      exact min_le_right _ _
    · intro hlt
      simp only [SimEngine.calculate_size, hL, Option.getD_some]
      rw [if_neg (not_le.mpr hpos)]
      exact min_eq_right (le_of_lt hlt)
    · simp only [PaperTradingEngine.calculate_size, hL, Option.getD_some]
      rw [if_neg (not_le.mpr hpos)]
      exact min_le_right _ _
  · intro hL
    have h1 : e.calculate_size o = 0 := by
      simp [PaperTradingEngine.calculate_size, hL]
    have h2 : SimEngine.calculate_size se o = 0 := by
      simp [SimEngine.calculate_size, hL]
    exact ⟨h1, h2, execute_eq_skip e o now (le_of_eq h1)⟩
  · simp [SimEngine.calculate_size, PaperTradingEngine.calculate_size]

/-- C2: when the spec-modelled engine is configured with a failure
probability and the simulated-failure draw fails, the balance is not
touched, the distinct failed counter (not the skipped counter) is
incremented, the on-failure callback is invoked with reason
"execution_failed", and the call returns false. -/
theorem sim_execute_failure_spec (e : SimEngine) (o : Opp) (rand : ℚ)
    (hsz : ¬ e.calculate_size o ≤ 0)
    (hcr : (costRet o.type o.total_cost o.total_value (e.calculate_size o)).isSome = true)
    (hfail : rand < e.failure_rate) :
    e.execute_opportunity o rand =
      ({ e with
          opportunities_seen := e.opportunities_seen + 1
          opportunities_failed := e.opportunities_failed + 1
          on_failure_calls := e.on_failure_calls ++ [(o, "execution_failed")] },
       false) := by
  rcases ho : costRet o.type o.total_cost o.total_value (e.calculate_size o) with _ | cr
  · rw [ho] at hcr
    exact absurd hcr (by simp)
  · simp only [SimEngine.calculate_size] at hsz ho
    simp only [SimEngine.execute_opportunity, SimEngine.calculate_size, ho]
    rw [if_neg hsz, if_pos hfail]

/-! Concrete engine evaluations shared by the witnesses. -/

theorem strC1 : strContains "BINARY_UNDERPRICED" "UNDERPRICED" = true := by decide

theorem wOpp_size : ({} : PaperTradingEngine).calculate_size wOpp = 100 := by
  simp only [PaperTradingEngine.calculate_size, wOpp, Option.getD_some]
  rw [if_neg (by norm_num), min_eq_left (by norm_num)]

theorem wOpp_cr : costRet wOpp.type wOpp.total_cost wOpp.total_value
    (({} : PaperTradingEngine).calculate_size wOpp) = some (97, 100) := by
  rw [wOpp_size]
  simp only [costRet, wOpp, strC1, if_true, Option.getD_some]
  norm_num

theorem exec_wOpp : ({} : PaperTradingEngine).execute_opportunity wOpp 0 =
    .ok (execStep {} wOpp 0 97 100, true) := by
  rw [execute_eq_some _ _ _ 97 100 wOpp_cr, if_neg (by rw [wOpp_size]; norm_num),
    if_neg (by norm_num), if_neg (by norm_num)]

/-- C5 witness: executing `wOpp` (cost 97, return 100) on a fresh engine
conserves the balance identity and records profit 3. -/
theorem execute_balance_spec_witness :
    (execStep ({} : PaperTradingEngine) wOpp 0 97 100).balance =
      ({} : PaperTradingEngine).balance - 97 + 100 ∧
    (execStep ({} : PaperTradingEngine) wOpp 0 97 100).session_total_pnl =
      ({} : PaperTradingEngine).session_total_pnl + (100 - 97) := by
  have h := (execute_balance_spec {} wOpp 0 (execStep {} wOpp 0 97 100) 97 100 wOpp_cr).1
    exec_wOpp
  exact ⟨h.1, h.2.2.2.1⟩

/-- C10 witness: the amended counter law at the same concrete execution —
seen and executed gain one, skipped is unchanged. -/
theorem execute_counters_amended_witness :
    (execStep ({} : PaperTradingEngine) wOpp 0 97 100).opportunities_seen =
      ({} : PaperTradingEngine).opportunities_seen + 1 ∧
    (execStep ({} : PaperTradingEngine) wOpp 0 97 100).opportunities_executed =
      ({} : PaperTradingEngine).opportunities_executed + 1 ∧
    (execStep ({} : PaperTradingEngine) wOpp 0 97 100).opportunities_skipped =
      ({} : PaperTradingEngine).opportunities_skipped := by
  have h := execute_counters_amended {} wOpp 0 (execStep {} wOpp 0 97 100) true exec_wOpp
  exact ⟨h.1, (h.2.1 rfl).1, (h.2.1 rfl).2⟩

/-- C8 witness: a 1%-cap engine reduces a requested size of 1000 to 100 on a
$10k-liquidity market, and a zero-liquidity opportunity sizes to 0 and is
skipped. -/
theorem calculate_size_spec_witness :
    wSim2.calculate_size wOppLiq = 10000 * (1/100) ∧
    wEng2.calculate_size wOppLiq0 = 0 ∧
    wEng2.execute_opportunity wOppLiq0 0 = .ok (skipStep wEng2, false) := by
  have h := calculate_size_spec wEng2 wSim2 wOppLiq 10000 0
  have h2 := calculate_size_spec wEng2 wSim2 wOppLiq0 0 0
  refine ⟨?_, (h2.2.1 rfl).1, (h2.2.1 rfl).2.2⟩
  have := (h.1 rfl (by norm_num)).2.1 (by norm_num [wSim2])
  simpa [wSim2] using this

/-- C2 witness: with failure rate 1 and draw 0 the concrete engine `wSim`
fails the trade — balance untouched, failed counter 1, skipped untouched,
callback logged with reason "execution_failed", result false. -/
theorem sim_execute_failure_spec_witness :
    wSim.execute_opportunity wOpp 0 =
      ({ wSim with
          opportunities_seen := wSim.opportunities_seen + 1
          opportunities_failed := wSim.opportunities_failed + 1
          on_failure_calls := wSim.on_failure_calls ++ [(wOpp, "execution_failed")] },
       false) := by
  have hsz : ¬ wSim.calculate_size wOpp ≤ 0 := by
    simp only [SimEngine.calculate_size, wOpp, Option.getD_some]
    rw [if_neg (by norm_num)]
    exact not_le.mpr (lt_min (by norm_num [wSim]) (by norm_num [wSim]))
  have hcr : (costRet wOpp.type wOpp.total_cost wOpp.total_value
      (wSim.calculate_size wOpp)).isSome = true := by
    simp only [costRet, wOpp, strC1, if_true]
    simp
  exact sim_execute_failure_spec wSim wOpp 0 hsz hcr (by norm_num [wSim])

/-! Association-list and update lemmas for the detector proofs. -/

theorem alookup_ainsert {α : Type} (m : List (String × α)) (k : String) (v : α) :
    alookup (ainsert m k v) k = some v := by
  induction m with
  | nil => simp [ainsert, alookup]
  | cons p rest ih =>
      obtain ⟨k', v'⟩ := p
      by_cases h : k' = k
      · simp [ainsert, alookup, h]
      · simp [ainsert, alookup, h, ih]

theorem ainsert_ainsert {α : Type} (m : List (String × α)) (k : String) (v w : α) :
    ainsert (ainsert m k v) k w = ainsert m k w := by
  induction m with
  | nil => simp [ainsert]
  | cons p rest ih =>
      obtain ⟨k', v'⟩ := p
      by_cases h : k' = k
      · simp [ainsert, h]
      · simp [ainsert, h, ih]

theorem updOpt_idem {α : Type} (x y : Option α) :
    updOpt x (updOpt x y) = updOpt x y := by
  cases x <;> rfl

theorem update_price_idem (m : MarketState) (tok : String) (b a : Option ℚ)
    (t1 t2 : ℕ) :
    (m.update_price tok b a t1).update_price tok b a t2 =
      m.update_price tok b a t2 := by
  simp only [MarketState.update_price]
  by_cases hy : tok = m.yes_token_id
  · subst hy
    simp [updOpt_idem]
  · by_cases hn : tok = m.no_token_id
    · subst hn
      simp [hy, updOpt_idem]
    · simp [hy, hn]

theorem neg_cond_update (e : NegRiskEventState) (tok : String) (b a : Option ℚ)
    (t : ℕ)
    (h : ((alookup e.yes_prices tok).isSome
        || e.markets.any (fun m => m.2.1 = tok)) = true) :
    ((alookup (e.update_price tok b a t).yes_prices tok).isSome
        || (e.update_price tok b a t).markets.any (fun m => m.2.1 = tok)) = true := by
  simp only [NegRiskEventState.update_price, h, if_true]
  cases a with
  | none => simpa using h
  | some q => simp [alookup_ainsert]

theorem neg_update_idem (e : NegRiskEventState) (tok : String) (b a : Option ℚ)
    (t1 t2 : ℕ) :
    (e.update_price tok b a t1).update_price tok b a t2 =
      e.update_price tok b a t2 := by
  by_cases h : ((alookup e.yes_prices tok).isSome
      || e.markets.any (fun m => m.2.1 = tok)) = true
  · have h2 := neg_cond_update e tok b a t1 h
    simp only [NegRiskEventState.update_price] at h2 ⊢
    rw [if_pos h, if_pos h]
    simp only [NegRiskEventState.update_price, h, if_true] at h2
    rw [if_pos h2]
    cases a <;> cases b <;> simp [ainsert_ainsert]
  · simp only [NegRiskEventState.update_price]
    rw [if_neg h, if_neg h]

theorem neg_check_under_time (e : NegRiskEventState) (tok : String)
    (b a : Option ℚ) (t t' : ℕ) (p : ℚ) :
    (e.update_price tok b a t).check_underpriced p =
      (e.update_price tok b a t').check_underpriced p := by
  simp only [NegRiskEventState.update_price]
  by_cases h : ((alookup e.yes_prices tok).isSome
      || e.markets.any (fun m => m.2.1 = tok)) = true
  · rw [if_pos h, if_pos h]
    rfl
  · rw [if_neg h, if_neg h]

theorem neg_check_over_time (e : NegRiskEventState) (tok : String)
    (b a : Option ℚ) (t t' : ℕ) (p : ℚ) :
    (e.update_price tok b a t).check_overpriced p =
      (e.update_price tok b a t').check_overpriced p := by
  simp only [NegRiskEventState.update_price]
  by_cases h : ((alookup e.yes_prices tok).isSome
      || e.markets.any (fun m => m.2.1 = tok)) = true
  · rw [if_pos h, if_pos h]
    rfl
  · rw [if_neg h, if_neg h]

theorem binaryOpps_time (t2m : List (String × String))
    (bm : List (String × MarketState)) (minp : ℚ) (s : String)
    (b a : Option ℚ) (t t' : ℕ) :
    binaryOpps t2m bm minp s b a t = binaryOpps t2m bm minp s b a t' := by
  unfold binaryOpps
  cases alookup t2m s with
  | none => rfl
  | some mid =>
      cases alookup bm mid with
      | none => rfl
      | some st => rfl

theorem negOpps_time (t2e : List (String × String))
    (ne : List (String × NegRiskEventState)) (minp : ℚ) (s : String)
    (b a : Option ℚ) (t t' : ℕ) :
    negOpps t2e ne minp s b a t = negOpps t2e ne minp s b a t' := by
  unfold negOpps
  cases alookup t2e s with
  | none => rfl
  | some eid =>
      dsimp only
      cases alookup ne eid with
      | none => rfl
      | some st =>
          dsimp only
          rw [neg_check_under_time st s b a t t', neg_check_over_time st s b a t t']

theorem binaryOpps_after (t2m : List (String × String))
    (bm : List (String × MarketState)) (minp : ℚ) (s : String)
    (b a : Option ℚ) (t1 t2 : ℕ) :
    binaryOpps t2m (binaryAfter t2m bm s b a t1) minp s b a t2 =
      binaryOpps t2m bm minp s b a t2 := by
  unfold binaryOpps binaryAfter
  rcases h1 : alookup t2m s with _ | mid
  · rfl
  · rcases h2 : alookup bm mid with _ | st
    · simp [h2]
    · simp [h2, alookup_ainsert, update_price_idem]

theorem binaryAfter_after (t2m : List (String × String))
    (bm : List (String × MarketState)) (s : String)
    (b a : Option ℚ) (t1 t2 : ℕ) :
    binaryAfter t2m (binaryAfter t2m bm s b a t1) s b a t2 =
      binaryAfter t2m bm s b a t2 := by
  unfold binaryAfter
  rcases h1 : alookup t2m s with _ | mid
  · rfl
  · rcases h2 : alookup bm mid with _ | st
    · simp [h2]
    · simp [h2, alookup_ainsert, ainsert_ainsert, update_price_idem]

theorem negOpps_after (t2e : List (String × String))
    (ne : List (String × NegRiskEventState)) (minp : ℚ) (s : String)
    (b a : Option ℚ) (t1 t2 : ℕ) :
    negOpps t2e (negAfter t2e ne s b a t1) minp s b a t2 =
      negOpps t2e ne minp s b a t2 := by
  unfold negOpps negAfter
  rcases h1 : alookup t2e s with _ | eid
  · rfl
  · rcases h2 : alookup ne eid with _ | st
    · simp [h2]
    · simp [h2, alookup_ainsert, neg_update_idem]

theorem negAfter_after (t2e : List (String × String))
    (ne : List (String × NegRiskEventState)) (s : String)
    (b a : Option ℚ) (t1 t2 : ℕ) :
    negAfter t2e (negAfter t2e ne s b a t1) s b a t2 =
      negAfter t2e ne s b a t2 := by
  unfold negAfter
  rcases h1 : alookup t2e s with _ | eid
  · rfl
  · rcases h2 : alookup ne eid with _ | st
    · simp [h2]
    · simp [h2, alookup_ainsert, ainsert_ainsert, neg_update_idem]

/-! Dedup-loop lemmas. -/

theorem dedupLoop_found (seen : List String) (found : ℕ) (l : List Opp) :
    (dedupLoop seen found l).2.1 = found + (dedupLoop seen found l).2.2.length := by
  induction l generalizing seen found with
  | nil => simp [dedupLoop]
  | cons o rest ih =>
      by_cases h : dedupKey o ∈ seen
      · simp [dedupLoop, h, ih]
      · simp [dedupLoop, h, ih]
        omega

theorem dedupLoop_out_unseen (seen : List String) (found : ℕ) (l : List Opp) :
    ∀ o ∈ (dedupLoop seen found l).2.2, dedupKey o ∉ seen := by
  induction l generalizing seen found with
  | nil => simp [dedupLoop]
  | cons o rest ih =>
      by_cases h : dedupKey o ∈ seen
      · simpa [dedupLoop, h] using ih seen found
      · intro o' ho'
        simp only [dedupLoop, h, if_false] at ho'
        rcases List.mem_cons.mp ho' with he | ho''
        · subst he
          exact h
        · intro hmem
          exact (ih (dedupKey o :: seen) (found + 1) o' ho'')
            (List.mem_cons_of_mem _ hmem)

theorem dedupLoop_seen_mono (seen : List String) (found : ℕ) (l : List Opp)
    (k : String) (hk : k ∈ seen) : k ∈ (dedupLoop seen found l).1 := by
  induction l generalizing seen found with
  | nil => simpa [dedupLoop]
  | cons o rest ih =>
      by_cases h : dedupKey o ∈ seen
      · simp only [dedupLoop, h, if_true]
        exact ih seen found hk
      · simp only [dedupLoop, h, if_false]
        exact ih (dedupKey o :: seen) (found + 1) (List.mem_cons_of_mem _ hk)

theorem dedupLoop_covers (seen : List String) (found : ℕ) (l : List Opp) :
    ∀ o ∈ l, dedupKey o ∈ (dedupLoop seen found l).1 := by
  induction l generalizing seen found with
  | nil => simp
  | cons o rest ih =>
      intro o' ho'
      by_cases h : dedupKey o ∈ seen
      · rcases List.mem_cons.mp ho' with he | ho''
        · subst he
          simp only [dedupLoop, h, if_true]
          exact dedupLoop_seen_mono seen found rest _ h
        · simp only [dedupLoop, h, if_true]
          exact ih seen found o' ho''
      · rcases List.mem_cons.mp ho' with he | ho''
        · subst he
          simp only [dedupLoop, h, if_false]
          exact dedupLoop_seen_mono _ _ rest _ (List.mem_cons_self _ _)
        · simp only [dedupLoop, h, if_false]
          exact ih (dedupKey o :: seen) (found + 1) o' ho''

theorem dedupLoop_all_seen (seen : List String) (found : ℕ) (l : List Opp)
    (h : ∀ o ∈ l, dedupKey o ∈ seen) :
    dedupLoop seen found l = (seen, found, []) := by
  induction l with
  | nil => rfl
  | cons o rest ih =>
      have ho := h o (List.mem_cons_self _ _)
      simp only [dedupLoop, ho, if_true]
      exact ih fun o' ho' => h o' (List.mem_cons_of_mem _ ho')

theorem dedupLoop_ne_nil (found : ℕ) (l : List Opp) (hl : l ≠ []) :
    (dedupLoop [] found l).2.2 ≠ [] := by
  cases l with
  | nil => exact absurd rfl hl
  | cons o rest =>
      simp [dedupLoop]

/-! Characterizations of `process_single_update`. -/

theorem psu_not_dict (d : Detector) (v : PyVal) (now : ℕ)
    (h : match v with | .dict _ => False | _ => True) :
    process_single_update d v now = .ok (d, []) := by
  cases v with
  | dict items => exact h.elim
  | pnone => rfl
  | pbool b => rfl
  | num q => rfl
  | str s => rfl
  | list l => rfl

theorem psu_falsy (d : Detector) (items : List (String × PyVal)) (now : ℕ)
    (h : pyTruthy ((alookup items "asset_id").getD .pnone) = false) :
    process_single_update d (.dict items) now = .ok (d, []) := by
  simp only [process_single_update, h]
  rfl

theorem psu_extract_err (d : Detector) (items : List (String × PyVal)) (now : ℕ)
    (err : Unit)
    (htr : pyTruthy ((alookup items "asset_id").getD .pnone) = true)
    (hex : extract_prices items = .error err) :
    process_single_update d (.dict items) now = .error err := by
  simp only [process_single_update, htr, hex]
  rfl

theorem psu_scalar_num (d : Detector) (items : List (String × PyVal)) (now : ℕ)
    (q : ℚ) (bid ask : Option ℚ)
    (htok : (alookup items "asset_id").getD .pnone = .num q)
    (htr : pyTruthy ((alookup items "asset_id").getD .pnone) = true)
    (hex : extract_prices items = .ok (bid, ask)) :
    process_single_update d (.dict items) now = .ok (d, []) := by
  simp only [process_single_update, htok, htr, hex]
  rw [htok] at htr
  simp only [htr]
  rfl

theorem psu_scalar_bool (d : Detector) (items : List (String × PyVal)) (now : ℕ)
    (bb : Bool) (bid ask : Option ℚ)
    (htok : (alookup items "asset_id").getD .pnone = .pbool bb)
    (htr : pyTruthy ((alookup items "asset_id").getD .pnone) = true)
    (hex : extract_prices items = .ok (bid, ask)) :
    process_single_update d (.dict items) now = .ok (d, []) := by
  simp only [process_single_update, htok, htr, hex]
  rw [htok] at htr
  simp only [htr]
  rfl

theorem psu_unhashable_list (d : Detector) (items : List (String × PyVal)) (now : ℕ)
    (l : List PyVal) (bid ask : Option ℚ)
    (htok : (alookup items "asset_id").getD .pnone = .list l)
    (htr : pyTruthy ((alookup items "asset_id").getD .pnone) = true)
    (hex : extract_prices items = .ok (bid, ask)) :
    process_single_update d (.dict items) now = .error () := by
  simp only [process_single_update, htok, htr, hex]
  rw [htok] at htr
  simp only [htr]
  rfl

theorem psu_unhashable_dict (d : Detector) (items : List (String × PyVal)) (now : ℕ)
    (dd : List (String × PyVal)) (bid ask : Option ℚ)
    (htok : (alookup items "asset_id").getD .pnone = .dict dd)
    (htr : pyTruthy ((alookup items "asset_id").getD .pnone) = true)
    (hex : extract_prices items = .ok (bid, ask)) :
    process_single_update d (.dict items) now = .error () := by
  simp only [process_single_update, htok, htr, hex]
  rw [htok] at htr
  simp only [htr]
  rfl

theorem psu_str (d : Detector) (items : List (String × PyVal)) (s : String)
    (bid ask : Option ℚ) (now : ℕ)
    (htok : (alookup items "asset_id").getD .pnone = .str s)
    (hs : s ≠ "")
    (hex : extract_prices items = .ok (bid, ask)) :
    process_single_update d (.dict items) now = .ok (psuStep d s bid ask now) := by
  simp only [process_single_update, htok, hex]
  rw [if_neg (by simp [pyTruthy, hs])]
  rfl

theorem dedup_trivial (d : Detector) (v : PyVal) (t1 t2 t3 : ℕ)
    (d1 d2 : Detector) (o1 o2 : List Opp)
    (hall : ∀ (x : Detector) (t : ℕ), process_single_update x v t = .ok (x, []))
    (h1 : process_single_update d v t1 = .ok (d1, o1))
    (h2 : process_single_update d1 v t2 = .ok (d2, o2)) :
    (∀ o ∈ o1, dedupKey o ∉ d.seen_opportunities) ∧
    d1.opportunities_found = d.opportunities_found + o1.length ∧
    d1.on_opportunity_calls = d.on_opportunity_calls ++ o1 ∧
    o2 = [] ∧
    (o1 ≠ [] → ∃ d3 o3,
      process_single_update d2.clear_seen v t3 = .ok (d3, o3) ∧ o3 ≠ []) := by
  rw [hall d t1] at h1
  injection h1 with h
  injection h with hd ho
  subst hd
  subst ho
  rw [hall d t2] at h2
  injection h2 with h'
  injection h' with hd2 ho2
  subst hd2
  subst ho2
  exact ⟨by simp, by simp, by simp, rfl, fun hne => absurd rfl hne⟩

theorem psuStep_snd_twice (d : Detector) (s : String) (bid ask : Option ℚ)
    (t1 t2 : ℕ) :
    (psuStep (psuStep d s bid ask t1).1 s bid ask t2).2 = [] := by
  simp only [psuStep]
  rw [binaryOpps_after, negOpps_after, binaryOpps_time _ _ _ _ _ _ t2 t1,
    negOpps_time _ _ _ _ _ _ t2 t1,
    dedupLoop_all_seen _ _ _ (dedupLoop_covers _ _ _)]

theorem psuStep_clear_third (d : Detector) (s : String) (bid ask : Option ℚ)
    (t1 t2 t3 : ℕ) (hne : (psuStep d s bid ask t1).2 ≠ []) :
    (psuStep ((psuStep (psuStep d s bid ask t1).1 s bid ask t2).1.clear_seen)
      s bid ask t3).2 ≠ [] := by
  have hb : binaryOpps d.token_to_market
      (binaryAfter d.token_to_market
        (binaryAfter d.token_to_market d.binary_markets s bid ask t1) s bid ask t2)
      d.min_profit s bid ask t3 =
      binaryOpps d.token_to_market d.binary_markets d.min_profit s bid ask t1 := by
    rw [binaryOpps_after, binaryOpps_after, binaryOpps_time _ _ _ _ _ _ t3 t1]
  have hn : negOpps d.token_to_event
      (negAfter d.token_to_event
        (negAfter d.token_to_event d.negrisk_events s bid ask t1) s bid ask t2)
      d.min_profit s bid ask t3 =
      negOpps d.token_to_event d.negrisk_events d.min_profit s bid ask t1 := by
    rw [negOpps_after, negOpps_after, negOpps_time _ _ _ _ _ _ t3 t1]
  simp only [psuStep, Detector.clear_seen]
  rw [hb, hn]
  apply dedupLoop_ne_nil
  intro hnil
  apply hne
  simp only [psuStep]
  rw [hnil]
  rfl

/-- C4: the detector deduplicates by the (type, subject id, profit percent
rounded to one decimal) key — an already-seen key is not returned, not
counted in `opportunities_found`, and not passed to the `on_opportunity`
callback; processing the identical tick twice in succession yields an empty
result the second time; and when the first call emitted something,
`clear_seen()` makes the same input yield a non-empty result again. -/
theorem detector_dedup_spec (d : Detector) (v : PyVal) (t1 t2 t3 : ℕ)
    (d1 d2 : Detector) (o1 o2 : List Opp)
    (h1 : process_single_update d v t1 = .ok (d1, o1))
    (h2 : process_single_update d1 v t2 = .ok (d2, o2)) :
    (∀ o ∈ o1, dedupKey o ∉ d.seen_opportunities) ∧
    d1.opportunities_found = d.opportunities_found + o1.length ∧
    d1.on_opportunity_calls = d.on_opportunity_calls ++ o1 ∧
    o2 = [] ∧
    (o1 ≠ [] → ∃ d3 o3,
      process_single_update d2.clear_seen v t3 = .ok (d3, o3) ∧ o3 ≠ []) := by
  cases v with
  | pnone =>
      exact dedup_trivial _ _ _ _ _ _ _ _ _ (fun x t => psu_not_dict x _ t trivial) h1 h2
  | pbool b =>
      exact dedup_trivial _ _ _ _ _ _ _ _ _ (fun x t => psu_not_dict x _ t trivial) h1 h2
  | num q =>
      exact dedup_trivial _ _ _ _ _ _ _ _ _ (fun x t => psu_not_dict x _ t trivial) h1 h2
  | str s =>
      exact dedup_trivial _ _ _ _ _ _ _ _ _ (fun x t => psu_not_dict x _ t trivial) h1 h2
  | list l =>
      exact dedup_trivial _ _ _ _ _ _ _ _ _ (fun x t => psu_not_dict x _ t trivial) h1 h2
  | dict items =>
      by_cases htr : pyTruthy ((alookup items "asset_id").getD .pnone) = false
      · exact dedup_trivial _ _ _ _ _ _ _ _ _
          (fun x t => psu_falsy x items t htr) h1 h2
      · have htr' : pyTruthy ((alookup items "asset_id").getD .pnone) = true := by
          revert htr
          cases pyTruthy ((alookup items "asset_id").getD .pnone) <;> simp
        rcases hex : extract_prices items with err | pr
        · rw [psu_extract_err d items t1 err htr' hex] at h1
          exact Except.noConfusion h1
        · obtain ⟨bid, ask⟩ := pr
          rcases htokv : (alookup items "asset_id").getD .pnone with _ | bb | q | s | l | dd
          · rw [htokv] at htr'
            simp [pyTruthy] at htr'
          · exact dedup_trivial _ _ _ _ _ _ _ _ _
              (fun x t => psu_scalar_bool x items t bb bid ask htokv htr' hex) h1 h2
          · exact dedup_trivial _ _ _ _ _ _ _ _ _
              (fun x t => psu_scalar_num x items t q bid ask htokv htr' hex) h1 h2
          · -- the main case: a truthy string token
            have hs : s ≠ "" := by
              rw [htokv] at htr'
              simpa [pyTruthy] using htr'
            rw [psu_str d items s bid ask t1 htokv hs hex] at h1
            injection h1 with hpair
            have hd1 : (psuStep d s bid ask t1).1 = d1 := congrArg Prod.fst hpair
            have ho1 : (psuStep d s bid ask t1).2 = o1 := congrArg Prod.snd hpair
            subst hd1
            subst ho1
            rw [psu_str _ items s bid ask t2 htokv hs hex] at h2
            injection h2 with hpair2
            have hd2 : (psuStep (psuStep d s bid ask t1).1 s bid ask t2).1 = d2 :=
              congrArg Prod.fst hpair2
            have ho2 : (psuStep (psuStep d s bid ask t1).1 s bid ask t2).2 = o2 :=
              congrArg Prod.snd hpair2
            subst hd2
            subst ho2
            refine ⟨?_, ?_, ?_, psuStep_snd_twice d s bid ask t1 t2, ?_⟩
            · simp only [psuStep]
              exact dedupLoop_out_unseen _ _ _
            · simp only [psuStep]
              exact dedupLoop_found _ _ _
            · simp only [psuStep]
            · intro hne
              exact ⟨_, _, psu_str _ items s bid ask t3 htokv hs hex,
                psuStep_clear_third d s bid ask t1 t2 t3 hne⟩
          · rw [psu_unhashable_list d items t1 l bid ask htokv htr' hex] at h1
            exact Except.noConfusion h1
          · rw [psu_unhashable_dict d items t1 dd bid ask htokv htr' hex] at h1
            exact Except.noConfusion h1

/-! Concrete detector evaluations shared by the C3/C4 counterexamples and
witnesses. -/

theorem wTick_extract :
    extract_prices [("asset_id", PyVal.str "yes1"), ("best_ask", PyVal.num (2/5))] =
      .ok (none, some (2/5)) := by
  simp [extract_prices, arrBest, bestBid, bestAsk, priceAsk, alookup, pyFloat, updOpt]

theorem wTick_tok :
    (alookup [("asset_id", PyVal.str "yes1"), ("best_ask", PyVal.num (2/5))]
      "asset_id").getD .pnone = .str "yes1" := by
  simp [alookup]

theorem wDet_h1 : process_single_update wDet wTick 0 = .ok (wDet1, [wOppD]) := by
  have h := psu_str wDet _ "yes1" none (some (2/5)) 0 wTick_tok (by simp) wTick_extract
  rw [show wTick = PyVal.dict
    [("asset_id", PyVal.str "yes1"), ("best_ask", PyVal.num (2/5))] from rfl, h]
  simp only [psuStep, binaryAfter, binaryOpps, negAfter, negOpps, alookup, ainsert,
    wDet, wMarketU, MarketState.update_price, updOpt, MarketState.check_underpriced,
    MarketState.check_overpriced, MarketState.url, dedupLoop, wDet1, wOppD,
    binaryUnderOpp]
  norm_num [dedupLoop]

theorem wDet_h2 : process_single_update wDet1 wTick 1 = .ok (wDet2, []) := by
  have h := psu_str wDet1 _ "yes1" none (some (2/5)) 1 wTick_tok (by simp) wTick_extract
  rw [show wTick = PyVal.dict
    [("asset_id", PyVal.str "yes1"), ("best_ask", PyVal.num (2/5))] from rfl, h]
  simp only [psuStep, binaryAfter, binaryOpps, negAfter, negOpps, alookup, ainsert,
    wDet, wDet1, wDet2, wMarketU, MarketState.update_price, updOpt,
    MarketState.check_underpriced, MarketState.check_overpriced, MarketState.url,
    dedupLoop, wOppD, binaryUnderOpp]
  norm_num [dedupLoop]

/-- C4 witness: on the concrete detector `wDet`, the identical tick processed
twice emits only once, and after `clear_seen()` it emits again. -/
theorem detector_dedup_spec_witness :
    resultOpps (process_single_update wDet1 wTick 1) = some [] ∧
    resultOpps (process_single_update wDet2.clear_seen wTick 2) ≠ some [] := by
  obtain ⟨-, -, -, -, hclear⟩ :=
    detector_dedup_spec wDet wTick 0 1 2 wDet1 wDet2 [wOppD] [] wDet_h1 wDet_h2
  constructor
  · rw [wDet_h2]
    rfl
  · obtain ⟨d3, o3, h3, hne⟩ := hclear (by simp)
    rw [h3]
    simpa [resultOpps] using hne

/-! Safety of `process_message` on well-shaped input (C3). -/

theorem pm_dict (d : Detector) (items : List (String × PyVal)) (now : ℕ) :
    process_message d (.dict items) now =
      process_single_update
        { d with messages_processed := d.messages_processed + 1 }
        (.dict items) now := rfl

theorem arrBest_ok (v : Option PyVal) (prior : Option ℚ)
    (h : goodArrVal v = true) : ∃ q, arrBest v prior = .ok q := by
  rcases v with _ | vv
  · exact ⟨_, rfl⟩
  · rcases vv with _ | b | q | s | l | dd
    · exact ⟨_, rfl⟩
    · exact ⟨_, rfl⟩
    · exact ⟨_, rfl⟩
    · exact ⟨_, rfl⟩
    · rcases l with _ | ⟨hh, rest⟩
      · exact ⟨_, rfl⟩
      · rcases hh with _ | b | q | s | hl | hd
        · simp [goodArrVal] at h
        · simp [goodArrVal] at h
        · simp [goodArrVal] at h
        · simp [goodArrVal] at h
        · simp [goodArrVal] at h
        · exact ⟨_, rfl⟩
    · exact ⟨_, rfl⟩

theorem extract_ok (items : List (String × PyVal))
    (hb : goodArrVal (alookup items "bids") = true)
    (ha : goodArrVal (alookup items "asks") = true) :
    ∃ p, extract_prices items = .ok p := by
  unfold extract_prices
  obtain ⟨b1, hb1⟩ := arrBest_ok (alookup items "bids") (bestBid items) hb
  rw [hb1]
  obtain ⟨a2, ha2⟩ := arrBest_ok (alookup items "asks") (bestAsk items) ha
  rw [ha2]
  exact ⟨_, rfl⟩

theorem psu_safe (d : Detector) (v : PyVal) (now : ℕ)
    (hsafe : tickSafe v = true) :
    isRaise (process_single_update d v now) = false := by
  cases v with
  | dict items =>
      by_cases htr : pyTruthy ((alookup items "asset_id").getD .pnone) = false
      · rw [psu_falsy d items now htr]
        rfl
      · have htr' : pyTruthy ((alookup items "asset_id").getD .pnone) = true := by
          revert htr
          cases pyTruthy ((alookup items "asset_id").getD .pnone) <;> simp
        simp only [tickSafe, htr', if_true] at hsafe
        rw [Bool.and_eq_true, Bool.and_eq_true] at hsafe
        obtain ⟨⟨hgb, hga⟩, hkind⟩ := hsafe
        obtain ⟨⟨bid, ask⟩, hex⟩ := extract_ok items hgb hga
        rcases htokv : (alookup items "asset_id").getD .pnone with _ | bb | q | s | l | dd
        · rw [htokv] at htr'
          simp [pyTruthy] at htr'
        · rw [psu_scalar_bool d items now bb bid ask htokv htr' hex]
          rfl
        · rw [psu_scalar_num d items now q bid ask htokv htr' hex]
          rfl
        · have hs : s ≠ "" := by
            rw [htokv] at htr'
            simpa [pyTruthy] using htr'
          rw [psu_str d items s bid ask now htokv hs hex]
          rfl
        · rw [htokv] at hkind
          simp at hkind
        · rw [htokv] at hkind
          simp at hkind
  | pnone => rfl
  | pbool b => rfl
  | num q => rfl
  | str s => rfl
  | list l => rfl

theorem processList_safe (now : ℕ) :
    ∀ (items : List PyVal) (d : Detector), items.all tickSafe = true →
      isRaise (processList d now items) = false := by
  intro items
  induction items with
  | nil =>
      intro d _
      rfl
  | cons i rest ih =>
      intro d hall
      rw [List.all_cons, Bool.and_eq_true] at hall
      obtain ⟨hi, hrest⟩ := hall
      rcases hps : process_single_update d i now with e | p
      · have hsafe := psu_safe d i now hi
        rw [hps] at hsafe
        exact absurd hsafe (by simp [isRaise])
      · obtain ⟨d', opps⟩ := p
        rcases hpl : processList d' now rest with e | p2
        · have hsafe := ih d' hrest
          rw [hpl] at hsafe
          exact absurd hsafe (by simp [isRaise])
        · simp only [processList, hps, hpl]
          rfl

theorem psu_unknown (d : Detector) (items : List (String × PyVal)) (s : String)
    (bid ask : Option ℚ) (now : ℕ)
    (htok : (alookup items "asset_id").getD .pnone = .str s)
    (hs : s ≠ "")
    (hex : extract_prices items = .ok (bid, ask))
    (hm : alookup d.token_to_market s = none)
    (he : alookup d.token_to_event s = none) :
    process_single_update d (.dict items) now = .ok (d, []) := by
  rw [psu_str d items s bid ask now htok hs hex]
  simp only [psuStep, binaryAfter, binaryOpps, negAfter, negOpps, hm, he,
    dedupLoop, List.append_nil]

/-- C3 counterexample: `process_message` is not exception-free on arbitrary
input — a tick whose `bids` array's first element is not a dict raises an
uncaught `AttributeError`, a truthy unhashable `asset_id` raises an uncaught
`TypeError`, and a tick for a monitored token whose price field parses to
nothing is not an empty result: the checks re-run on the previously stored
prices and emit. -/
theorem process_message_raise_cex :
    process_message wDet0 badArrTick 0 = .error () ∧
    process_message wDet0 unhashableTick 0 = .error () ∧
    resultOpps (process_message wDet badPriceTick 0) ≠ some [] := by
  refine ⟨?_, ?_, ?_⟩
  · rw [show badArrTick = PyVal.dict
      [("asset_id", PyVal.str "a"), ("bids", PyVal.list [PyVal.num 1])] from rfl, pm_dict]
    exact psu_extract_err _ _ _ () (by decide) (by rfl)
  · rw [show unhashableTick = PyVal.dict
      [("asset_id", PyVal.list [PyVal.num 1])] from rfl, pm_dict]
    exact psu_unhashable_list _ _ _ [PyVal.num 1] none none (by rfl) (by decide) (by rfl)
  · have hzz : pyFloat (PyVal.str "zz") = none := by decide
    have hex : extract_prices [("asset_id", PyVal.str "yes1"), ("price", PyVal.str "zz")] =
        .ok (none, none) := by
      simp [extract_prices, arrBest, bestBid, bestAsk, priceAsk, alookup, hzz]
    rw [show badPriceTick = PyVal.dict
      [("asset_id", PyVal.str "yes1"), ("price", PyVal.str "zz")] from rfl, pm_dict]
    rw [psu_str _ _ "yes1" none none 0 (by simp [alookup]) (by simp) hex]
    simp only [resultOpps, psuStep, binaryAfter, binaryOpps, negAfter, negOpps,
      alookup, ainsert, wDet, wMarketU, MarketState.update_price, updOpt,
      MarketState.check_underpriced, MarketState.check_overpriced, MarketState.url,
      dedupLoop]
    norm_num [dedupLoop]

/-- C3 amended: `process_message` never raises on inputs whose ticks avoid
the two uncaught-exception shapes (a truthy `asset_id` together with a
`bids`/`asks` array whose first element is not a dict, or a truthy
unhashable list/dict `asset_id`); non-dict ticks, ticks with a falsy or
absent asset id, and ticks whose (string) asset id matches no registered
token produce an empty result and leave all detector state except the
message counter unchanged.  A tick with merely unparseable price fields is
swallowed as a no-op update but may still emit opportunities computed from
previously stored prices. -/
theorem process_message_amended (d : Detector) (v : PyVal) (now : ℕ) :
    (msgSafe v = true → isRaise (process_message d v now) = false) ∧
    ((match v with | .dict _ => False | .list _ => False | _ => True) →
      process_message d v now =
        .ok ({ d with messages_processed := d.messages_processed + 1 }, [])) ∧
    (∀ items, v = .dict items →
      pyTruthy ((alookup items "asset_id").getD .pnone) = false →
      process_message d v now =
        .ok ({ d with messages_processed := d.messages_processed + 1 }, [])) ∧
    (∀ items s bid ask, v = .dict items →
      (alookup items "asset_id").getD .pnone = .str s → s ≠ "" →
      extract_prices items = .ok (bid, ask) →
      alookup d.token_to_market s = none →
      alookup d.token_to_event s = none →
      process_message d v now =
        .ok ({ d with messages_processed := d.messages_processed + 1 }, [])) := by
  refine ⟨?_, ?_, ?_, ?_⟩
  · intro hsafe
    cases v with
    | list items => exact processList_safe now items _ hsafe
    | dict items =>
        rw [pm_dict]
        exact psu_safe _ (PyVal.dict items) now hsafe
    | pnone => rfl
    | pbool b => rfl
    | num q => rfl
    | str s => rfl
  · intro hnd
    cases v with
    | dict items => exact hnd.elim
    | list items => exact hnd.elim
    | pnone => rfl
    | pbool b => rfl
    | num q => rfl
    | str s => rfl
  · intro items hv htr
    subst hv
    rw [pm_dict]
    exact psu_falsy _ items now htr
  · intro items s bid ask hv htok hs hex hm he
    subst hv
    rw [pm_dict]
    exact psu_unknown _ items s bid ask now htok hs hex hm he

/-- C3 witness: the amended theorem at concrete inputs — the well-shaped
tick `wTick` does not raise, and a bare number tick yields an empty result. -/
theorem process_message_amended_witness :
    isRaise (process_message wDet wTick 0) = false ∧
    process_message wDet0 (.num 5) 0 =
      .ok ({ wDet0 with messages_processed := wDet0.messages_processed + 1 }, []) := by
  exact ⟨(process_message_amended wDet wTick 0).1 (by decide),
    (process_message_amended wDet0 (.num 5) 0).2.1 trivial⟩

end Polyarb
